import Mathlib

/-
Verification development for the pybpod-api communication driver
(pybpodapi/bpod/bpod_com_protocol.py, class BpodCOMProtocol).

The driver methods are shallowly embedded as pure Lean functions: bytes read
from the device arrive as explicit input lists, bytes written to the device
are returned as traces, mutable object state (the 255-slot serial-message
presence table, the connection-ready flag) is passed explicitly, and serial
transport faults (SerialException) are modelled as an explicit failure case.
-/

namespace ReceiveMessageHeader

/-- Byte the primary port emits every 100 ms; the source docstring of the
port-identification routine documents the value 222 (0xDE). -/
def PRIMARY_PORT_PING : Nat := 222

/-- Response of the secondary application port to the secondary-port
handshake; the source docstring documents the value 222. -/
def SECONDARY_PORT_HANDSHAKE_OK : Nat := 222

/-- Response of the analog input port to the analog-port handshake; the
source docstring documents the value 223. -/
def ANALOG_PORT_HANDSHAKE_OK : Nat := 223

/-- Modelled from the spec: confirmation code for the load-serial-message
command.  The concrete value lives in the receive-message-header table,
which is not under src; no claim depends on the value, only on the equality
comparison against it. -/
def LOAD_SERIAL_MESSAGE_OK : Nat := 1

end ReceiveMessageHeader

namespace SendMessageHeader

/-- Modelled from the spec: one-byte opcode of the load-serial-message
command.  The send-message-header table is not under src; the placeholder
value is immaterial to every claim. -/
def LOAD_SERIAL_MESSAGE : Nat := 76

/-- Modelled from the spec: one-byte opcode of the echo-softcode command
(send-message-header table not under src; value immaterial to the claims). -/
def ECHO_SOFTCODE : Nat := 69

/-- Modelled from the spec: one-byte opcode of the manual-override virtual
event command (table not under src; value immaterial to the claims). -/
def MANUAL_OVERRIDE_EXEC_EVENT : Nat := 86

/-- Modelled from the spec: one-byte opcode of the override-digital-state
command (table not under src; value immaterial to the claims). -/
def OVERRIDE_DIGITAL_HW_STATE : Nat := 36

/-- Modelled from the spec: one-byte opcode of the route-byte-to-hardware
serial channel command (table not under src; value immaterial). -/
def SEND_TO_HW_SERIAL : Nat := 87

end SendMessageHeader

namespace ChannelType

/-- Modelled from the spec: the input channel category.  The ChannelType
class is not under src; the spec only distinguishes input from output, so
the encodings are placeholders. -/
def INPUT : Nat := 1

/-- Modelled from the spec: the output channel category (placeholder
encoding, see `ChannelType.INPUT`). -/
def OUTPUT : Nat := 2

end ChannelType

/-- Outcome of one call to the serial-message store. -/
inductive LoadOutcome where
  /-- Python IndexError raised by the assignment into the presence table. -/
  | indexError : LoadOutcome
  /-- BpodErrorException for a message longer than the negotiated limit;
  carries the limit, as the formatted message does. -/
  | tooLong (max_bytes : Nat) : LoadOutcome
  /-- BpodErrorException for a slot id outside the documented range;
  carries the offending id, as the formatted message does. -/
  | invalidId (message_id : Int) : LoadOutcome
  /-- Validation passed: the byte trace written to the device, and the
  boolean comparison of the confirmation byte against the OK code. -/
  | sent (written : List Nat) (ok : Bool) : LoadOutcome
  deriving DecidableEq

/-- Post-state of one call to the serial-message store: the presence table
after the call (object state survives a raised exception) plus the outcome. -/
structure LoadResult where
  msg_id_list : List Bool
  outcome : LoadOutcome
  deriving DecidableEq

/-- Python list assignment semantics for a list of booleans: an index in
[0, len) writes directly, an index in [-len, 0) writes at len + i, any
other index raises IndexError (modelled as `none`). -/
def pyListSet (l : List Bool) (i : Int) (v : Bool) : Option (List Bool) :=
  if 0 ≤ i ∧ i < (l.length : Int) then some (l.set i.toNat v)
  else if -(l.length : Int) ≤ i ∧ i < 0 then some (l.set (i + l.length).toNat v)
  else none

/-- Embedding of `_bpodcom_load_serial_message`.  `serial_channel` is the
channel number after the BpodModule resolution step; `response` is the
confirmation byte subsequently read from the device.  Exactly as in the
source, the assignment `msg_id_list[message_id] = True` runs before the
over-length check and the range check, and the two checks raise
BpodErrorException while the assignment itself can raise IndexError. -/
def _bpodcom_load_serial_message (msg_id_list : List Bool) (serial_channel : Nat)
    (message_id : Int) (serial_message : List Nat) (n_messages : Nat)
    (max_bytes : Nat) (response : Nat) : LoadResult :=
  match pyListSet msg_id_list message_id true with
  | none => { msg_id_list := msg_id_list, outcome := LoadOutcome.indexError }
  | some table =>
    if serial_message.length > max_bytes then
      { msg_id_list := table, outcome := LoadOutcome.tooLong max_bytes }
    else if ¬ (1 ≤ message_id ∧ message_id ≤ 255) then
      { msg_id_list := table, outcome := LoadOutcome.invalidId message_id }
    else
      let message_container := [serial_channel - 1, n_messages, message_id.toNat,
        serial_message.length] ++ serial_message
      { msg_id_list := table,
        outcome := LoadOutcome.sent
          (SendMessageHeader.LOAD_SERIAL_MESSAGE :: message_container)
          (response == ReceiveMessageHeader.LOAD_SERIAL_MESSAGE_OK) }

/-- Distinguished hardware-protocol error raised by `manual_override`
(BpodErrorException in the source). -/
inductive BpodErr where
  /-- Invalid channel name; carries the name interpolated into the message. -/
  | invalidChannelName (name : String) : BpodErr
  /-- Channel category other than input or output. -/
  | invalidChannelType : BpodErr
  deriving DecidableEq

/-- Observable outcome of one `manual_override` call. -/
inductive MOOutcome where
  /-- Completed; carries the byte trace written to the primary connection. -/
  | ok (written : List Nat) : MOOutcome
  /-- Python ValueError raised by a failed `list.index` lookup. -/
  | valueError : MOOutcome
  /-- BpodErrorException raised to the caller. -/
  | bpodError (e : BpodErr) : MOOutcome
  /-- SerialException from the transport propagated to the caller. -/
  | transportFault : MOOutcome
  deriving DecidableEq

/-- Python `list.index` on strings, with a miss returning `none` (the
source lets the ValueError escape or catches it depending on call site). -/
def pyIndex : List String → String → Option Nat
  | [], _ => none
  | y :: rest, x =>
    if y = x then some 0 else (pyIndex rest x).map (fun i => i + 1)

/-- Embedding of `manual_override`.  `write_ok` is false when the underlying
serial write raises a transport fault (SerialException).  The structure
mirrors the source exactly: for input the name lookup runs outside the
try/except and only the subsequent override-input-state write is guarded by
a bare except; for output name "Serial" the write is unguarded; for other
outputs both lookup and write sit inside the try with a bare except. -/
def manual_override (input_channel_names output_channel_names : List String)
    (write_ok : Bool) (channel_type : Nat) (channel_name : String)
    (channel_number value : Nat) : MOOutcome :=
  if channel_type = ChannelType.INPUT then
    let input_channel_name := channel_name ++ toString channel_number
    match pyIndex input_channel_names input_channel_name with
    | none => MOOutcome.valueError
    | some idx =>
      if write_ok then
        MOOutcome.ok [SendMessageHeader.MANUAL_OVERRIDE_EXEC_EVENT, idx, value]
      else
        MOOutcome.bpodError (BpodErr.invalidChannelName channel_name)
  else if channel_type = ChannelType.OUTPUT then
    if channel_name = "Serial" then
      if write_ok then
        MOOutcome.ok [SendMessageHeader.SEND_TO_HW_SERIAL, channel_number, value]
      else
        MOOutcome.transportFault
    else
      let output_channel_name := channel_name ++ toString channel_number
      match pyIndex output_channel_names output_channel_name with
      | none => MOOutcome.bpodError (BpodErr.invalidChannelName output_channel_name)
      | some idx =>
        if write_ok then
          MOOutcome.ok [SendMessageHeader.OVERRIDE_DIGITAL_HW_STATE, idx, value]
        else
          MOOutcome.bpodError (BpodErr.invalidChannelName output_channel_name)
  else
    MOOutcome.bpodError BpodErr.invalidChannelType

/-- Embedding of `_bpodcom_echo_softcode` as the list of write operations it
performs on the primary connection, in order: `write_char` of the opcode,
`write_char` of the softcode, then `write_array` of opcode-plus-softcode. -/
def _bpodcom_echo_softcode (softcode : Nat) : List (List Nat) :=
  [[SendMessageHeader.ECHO_SOFTCODE], [softcode],
   [SendMessageHeader.ECHO_SOFTCODE, softcode]]

/-- ArCOM `read_uint16_array`: read `n` little-endian u16 values from the
front of the byte stream, returning the values and the remaining stream.
The short-read fallback is never reached by the analog decoder, which only
requests complete groups. -/
def read_uint16_array : Nat → List Nat → List Nat × List Nat
  | 0, s => ([], s)
  | n + 1, b0 :: b1 :: rest =>
    let r := read_uint16_array n rest
    ((b0 + 256 * b1) :: r.1, r.2)
  | _ + 1, s => ([], s)

/-- Embedding of `_bpodcom_read_analog_input_samples`.  `analog_buffer` is
the byte queue currently available on the analog connection
(`bytes_available` is its length).  Returns the decoded u16 values and the
bytes left unread in the queue. -/
def _bpodcom_read_analog_input_samples (n_channels : Nat)
    (analog_buffer : List Nat) : List Nat × List Nat :=
  let n_bytes_available := analog_buffer.length
  if n_bytes_available > 0 then
    let n_samples := n_bytes_available / (2 * (n_channels + 1))
    if n_samples > 0 then
      read_uint16_array (n_samples * (n_channels + 1)) analog_buffer
    else ([], analog_buffer)
  else ([], analog_buffer)

/-- ArCOM `read_uint8`: read one byte from the front of the stream. -/
def read_uint8 : List Nat → Option (Nat × List Nat)
  | [] => none
  | b :: rest => some (b, rest)

/-- ArCOM `read_uint16`: read one little-endian u16 from the stream. -/
def read_uint16 : List Nat → Option (Nat × List Nat)
  | b0 :: b1 :: rest => some (b0 + 256 * b1, rest)
  | _ => none

/-- ArCOM `read_char_array`: read `n` single-character codes (bytes). -/
def read_char_array : Nat → List Nat → Option (List Nat × List Nat)
  | 0, s => some ([], s)
  | _ + 1, [] => none
  | n + 1, b :: rest =>
    match read_char_array n rest with
    | none => none
    | some (cs, r) => some (b :: cs, r)

/-- Fields that `_bpodcom_hardware_description` stores on the hardware
record (channel type codes kept as their byte values, ASCII 85 for U and
70 for F). -/
structure Hardware where
  max_states : Nat
  cycle_period : Nat
  max_serial_events : Nat
  serial_message_max_bytes : Nat
  n_global_timers : Nat
  n_global_counters : Nat
  n_conditions : Nat
  inputs : List Nat
  outputs : List Nat
  n_uart_channels : Nat
  n_flex_channels : Nat
  live_timestamps : Nat
  deriving DecidableEq

/-- Conditional field of the capability negotiation, exactly the source's
`if hardware.firmware_version > 22` branch: read one u8 when the firmware
version exceeds 22, otherwise consume nothing and default to 3. -/
def read_serial_message_max_bytes (firmware_version : Nat) (s : List Nat) :
    Option (Nat × List Nat) :=
  if firmware_version > 22 then read_uint8 s else pure (3, s)

/-- Embedding of `_bpodcom_hardware_description`: the ordered parse of the
capability-negotiation response stream.  `firmware_version` was read
earlier and is stored on the hardware record before this call; the
serial-message max-byte field is read only when it exceeds 22, otherwise
defaulted to 3.  The final one-byte read is the live-timestamp transmission
mode requested by `_bpodcom_get_timestamp_transmission`. -/
def _bpodcom_hardware_description (firmware_version : Nat) (s : List Nat) :
    Option (Hardware × List Nat) := do
  let (max_states, s) ← read_uint16 s
  let (cycle_period, s) ← read_uint16 s
  let (max_serial_events, s) ← read_uint8 s
  let (serial_message_max_bytes, s) ← read_serial_message_max_bytes firmware_version s
  let (n_global_timers, s) ← read_uint8 s
  let (n_global_counters, s) ← read_uint8 s
  let (n_conditions, s) ← read_uint8 s
  let (n_inputs, s) ← read_uint8 s
  let (inputs, s) ← read_char_array n_inputs s
  let (n_outputs, s) ← read_uint8 s
  let (outputs, s) ← read_char_array n_outputs s
  let (live_timestamps, s) ← read_uint8 s
  pure ({ max_states := max_states
          cycle_period := cycle_period
          max_serial_events := max_serial_events
          serial_message_max_bytes := serial_message_max_bytes
          n_global_timers := n_global_timers
          n_global_counters := n_global_counters
          n_conditions := n_conditions
          inputs := inputs
          outputs := outputs
          n_uart_channels := (inputs.filter (fun c => c = 85)).length
          n_flex_channels := (inputs.filter (fun c => c = 70)).length
          live_timestamps := live_timestamps }, s)

/-- Result of probing one candidate endpoint: a SerialException while
opening/reading it (`Except.error ()`), or the byte read (a read timeout
surfaces as a byte that matches no expected code, exactly as the source's
else-branch treats it). -/
abbrev ProbeResult := Except Unit Nat

/-- First loop of `_bpodcom_identify_USB_serial_ports`: probe candidates in
order for the primary-port beacon; a faulting candidate is recorded bad and
the scan continues; the first beacon match wins and stops the scan.
Returns the primary port found (if any) and the bad-port list. -/
def identify_primary_loop (probe : Nat → ProbeResult) :
    List Nat → Option Nat × List Nat
  | [] => (none, [])
  | p :: rest =>
    match probe p with
    | Except.error _ =>
      let r := identify_primary_loop probe rest
      (r.1, p :: r.2)
    | Except.ok b =>
      if b = ReceiveMessageHeader.PRIMARY_PORT_PING then (some p, [])
      else identify_primary_loop probe rest

/-- Second loop of `_bpodcom_identify_USB_serial_ports`: while secondary or
analog is unresolved, probe the next candidate (the two handshake bytes are
written on the primary connection and the reply read from the candidate);
reply 222 assigns secondary, 223 assigns analog, anything else leaves the
candidate unassigned; a faulting candidate is recorded bad and skipped; the
loop breaks once both roles are resolved. -/
def identify_secondary_analog_loop (probe : Nat → ProbeResult) :
    List Nat → Option Nat → Option Nat → Option Nat × Option Nat
  | [], sec, ana => (sec, ana)
  | p :: rest, sec, ana =>
    if sec.isNone || ana.isNone then
      match probe p with
      | Except.error _ => identify_secondary_analog_loop probe rest sec ana
      | Except.ok r =>
        if r = ReceiveMessageHeader.SECONDARY_PORT_HANDSHAKE_OK then
          identify_secondary_analog_loop probe rest (some p) ana
        else if r = ReceiveMessageHeader.ANALOG_PORT_HANDSHAKE_OK then
          identify_secondary_analog_loop probe rest sec (some p)
        else
          identify_secondary_analog_loop probe rest sec ana
    else (sec, ana)

/-- Python `available_ports.remove(port)` applied to every recorded bad
port, in order (each removes the first occurrence). -/
def remove_bad_ports (l bad : List Nat) : List Nat :=
  bad.foldl (fun acc b => acc.erase b) l

/-- Embedding of `_bpodcom_identify_USB_serial_ports` on the path actually
reachable from `__init__` (no pre-configured serial port): scan for the
primary beacon, drop the primary and the bad ports from the pool, classify
the remaining candidates as secondary/analog, and return whatever subset of
the three roles was resolved.  `probe1` is the beacon-read probe of the
first loop, `probe2` the handshake-reply probe of the second. -/
def _bpodcom_identify_USB_serial_ports (probe1 probe2 : Nat → ProbeResult)
    (available_ports : List Nat) : Option Nat × Option Nat × Option Nat :=
  let fp := identify_primary_loop probe1 available_ports
  match fp.1 with
  | none => (none, none, none)
  | some primary_port =>
    let pool := remove_bad_ports (available_ports.erase primary_port) fp.2
    let sa := identify_secondary_analog_loop probe2 pool none none
    (some primary_port, sa.1, sa.2)

/-- Concrete phase-1 probe used by the discovery witness: candidate 0 emits
the beacon, candidate 1 faults, the rest time out. -/
def wProbe1 : Nat → ProbeResult :=
  fun n => if n = 0 then Except.ok 222 else if n = 1 then Except.error () else Except.ok 0

/-- Concrete phase-2 probe used by the discovery witness: candidate 2
answers the secondary handshake, candidate 3 the analog handshake, the rest
fault. -/
def wProbe2 : Nat → ProbeResult :=
  fun n => if n = 2 then Except.ok 222 else if n = 3 then Except.ok 223 else Except.error ()

/-- Connection-lifecycle state of the driver visible to `close`: the ready
flag, and for each of the three connections how many times its underlying
`close()` has been invoked (the secondary and analog connections are
optional, `none` when never opened).  The base-class `close` is session
teardown (out of scope per the spec) and touches none of these. -/
structure ComState where
  bpod_com_ready : Bool
  primary_close_count : Nat
  secondary_close_count : Option Nat
  analog_close_count : Option Nat
  deriving DecidableEq

/-- Embedding of `close`: when the ready flag is set, close the primary
connection and whichever of the secondary/analog connections exist, then
clear the flag; otherwise do nothing. -/
def close (s : ComState) : ComState :=
  if s.bpod_com_ready then
    { bpod_com_ready := false
      primary_close_count := s.primary_close_count + 1
      secondary_close_count := s.secondary_close_count.map (fun k => k + 1)
      analog_close_count := s.analog_close_count.map (fun k => k + 1) }
  else s

/-- Fresh presence table created in `__init__`: 255 slots, all false
(`[False for i in range(255)]`). -/
def fresh_msg_id_list : List Bool := List.replicate 255 false

/-- Concrete capability-negotiation response stream used by the witness:
max states 1, cycle period 100, max serial events 5, serial-message max
bytes 7, two global timers, three counters, four conditions, one input of
type code 85, one output of type code 70, live-timestamp mode 9. -/
def wStream : List Nat := [1, 0, 100, 0, 5, 7, 2, 3, 4, 1, 85, 1, 70, 9]

/-- Hardware record that parsing `wStream` at firmware version 23 yields. -/
def wHardware : Hardware :=
  { max_states := 1, cycle_period := 100, max_serial_events := 5,
    serial_message_max_bytes := 7, n_global_timers := 2, n_global_counters := 3,
    n_conditions := 4, inputs := [85], outputs := [70],
    n_uart_channels := 1, n_flex_channels := 0, live_timestamps := 9 }

set_option maxRecDepth 4000

/-- C1: the source marks the slot present before running either validation
check, so a call rejected for an over-length message (slot 5, four message
bytes against limit 3) raises the domain error and still flips slot 5 of
the presence table; the table therefore does not mark exactly the slot ids
of the calls that passed validation. -/
theorem load_serial_message_rejected_call_marks_slot :
    (_bpodcom_load_serial_message fresh_msg_id_list 1 5 [1, 2, 3, 4] 1 3 0).outcome
        = LoadOutcome.tooLong 3 ∧
    ((_bpodcom_load_serial_message fresh_msg_id_list 1 5 [1, 2, 3, 4] 1 3 0).msg_id_list)[5]?
        = some true ∧
    fresh_msg_id_list[5]? = some false := by
  refine ⟨by decide, by decide, by decide⟩

/-- C2: slot id 255 is inside the documented valid range and passes the
source's own range check, but the presence table has only indices 0..254,
so the table write `msg_id_list[255] = True` raises IndexError and the call
faults before any validation or device I/O. -/
theorem load_serial_message_slot_255_faults :
    (_bpodcom_load_serial_message fresh_msg_id_list 1 255 [1] 1 3 0).outcome
        = LoadOutcome.indexError ∧
    (_bpodcom_load_serial_message fresh_msg_id_list 1 255 [1] 1 3 0).msg_id_list
        = fresh_msg_id_list := by
  refine ⟨by decide, by decide⟩

/-- C4: for slot id 256 (outside the documented range) the pre-validation
table write raises IndexError before the source's own range check can
produce the domain error carrying the offending id; the rejection is a
generic fault, not the explicit domain error the claim requires. -/
theorem load_serial_message_slot_256_generic_fault :
    (_bpodcom_load_serial_message fresh_msg_id_list 1 256 [1] 1 3 0).outcome
        = LoadOutcome.indexError ∧
    (_bpodcom_load_serial_message fresh_msg_id_list 1 256 [1] 1 3 0).outcome
        ≠ LoadOutcome.invalidId 256 := by
  refine ⟨by decide, by decide⟩

/-- C3: for an input-category manual override whose composed name is absent
from the input-channel-name table, the `list.index` lookup sits outside the
try/except, so the call raises the generic ValueError instead of the
distinguished hardware-protocol error. -/
theorem manual_override_unknown_input_name_value_error :
    manual_override ["Port1", "Port2"] [] true ChannelType.INPUT "Xyz" 1 0
        = MOOutcome.valueError := by
  decide

/-- C7 counterexample: at softcode 5 the echo command does not transmit the
two-byte sequence exactly once; it performs three writes whose flattened
byte stream repeats the sequence. -/
theorem echo_softcode_not_written_once :
    _bpodcom_echo_softcode 5 ≠ [[SendMessageHeader.ECHO_SOFTCODE, 5]] ∧
    (_bpodcom_echo_softcode 5).flatten ≠ [SendMessageHeader.ECHO_SOFTCODE, 5] := by
  refine ⟨by decide, by decide⟩

/-- C7 (amended): every echo-softcode invocation transmits the two-byte
sequence [opcode, softcode] twice: first as two single-byte writes, then
again as one two-byte array write. -/
theorem echo_softcode_writes_sequence_twice (softcode : Nat) :
    (_bpodcom_echo_softcode softcode).flatten
        = [SendMessageHeader.ECHO_SOFTCODE, softcode]
            ++ [SendMessageHeader.ECHO_SOFTCODE, softcode] := by
  rfl

/-- C8 counterexample: an input-category manual override with a valid name
whose underlying write raises a transport fault does not propagate the
fault; the bare except converts it into the invalid-channel domain error. -/
theorem manual_override_transport_fault_converted :
    manual_override ["BNC1"] [] false ChannelType.INPUT "BNC" 1 0
        = MOOutcome.bpodError (BpodErr.invalidChannelName "BNC") ∧
    manual_override ["BNC1"] [] false ChannelType.INPUT "BNC" 1 0
        ≠ MOOutcome.transportFault := by
  refine ⟨by decide, by decide⟩

/-- C8 (amended): during a manual-override call a transport fault in the
underlying write propagates to the caller only on the output path named
"Serial"; for input overrides and for non-Serial output overrides whose
name lookup succeeds, the bare except converts the fault into the
invalid-channel hardware-protocol error. -/
theorem manual_override_transport_fault_paths
    (input_channel_names output_channel_names : List String)
    (channel_name : String) (channel_number value : Nat) :
    (manual_override input_channel_names output_channel_names false
        ChannelType.OUTPUT "Serial" channel_number value = MOOutcome.transportFault) ∧
    (∀ idx, pyIndex input_channel_names (channel_name ++ toString channel_number) = some idx →
        manual_override input_channel_names output_channel_names false
          ChannelType.INPUT channel_name channel_number value
          = MOOutcome.bpodError (BpodErr.invalidChannelName channel_name)) ∧
    (channel_name ≠ "Serial" →
      ∀ idx, pyIndex output_channel_names (channel_name ++ toString channel_number) = some idx →
        manual_override input_channel_names output_channel_names false
          ChannelType.OUTPUT channel_name channel_number value
          = MOOutcome.bpodError
              (BpodErr.invalidChannelName (channel_name ++ toString channel_number))) := by
  refine ⟨?_, ?_, ?_⟩
  · simp [manual_override, ChannelType.INPUT, ChannelType.OUTPUT]
  · intro idx h
    simp [manual_override, ChannelType.INPUT, h]
  · intro hser idx h
    simp [manual_override, ChannelType.INPUT, ChannelType.OUTPUT, hser, h]

/-- C8 witness: the conversion branch of the amended theorem at a concrete
input override whose write faults. -/
theorem manual_override_transport_fault_paths_witness :
    pyIndex ["Led3"] ("Led" ++ toString 3) = some 0 ∧
    manual_override ["Led3"] [] false ChannelType.INPUT "Led" 3 2
        = MOOutcome.bpodError (BpodErr.invalidChannelName "Led") :=
  ⟨by decide,
   (manual_override_transport_fault_paths ["Led3"] [] "Led" 3 2).2.1 0 (by decide)⟩

/-- C10: the first close on a ready driver closes the primary connection
and whichever optional connections exist exactly once and clears the ready
flag; a close on a non-ready driver is a no-op; and iterating close any
number of times never produces a state other than the original or the
once-closed one, so no underlying connection close runs more than once per
session. -/
theorem close_idempotent_spec (s : ComState) :
    (s.bpod_com_ready = true →
      (close s).bpod_com_ready = false ∧
      (close s).primary_close_count = s.primary_close_count + 1 ∧
      (close s).secondary_close_count = s.secondary_close_count.map (fun k => k + 1) ∧
      (close s).analog_close_count = s.analog_close_count.map (fun k => k + 1)) ∧
    (s.bpod_com_ready = false → close s = s) ∧
    (∀ n, Nat.iterate close n s = s ∨ Nat.iterate close n s = close s) := by
  have hnoop : ∀ t : ComState, t.bpod_com_ready = false → close t = t := by
    intro t ht
    simp [close, ht]
  have hidem : close (close s) = close s := by
    by_cases hs : s.bpod_com_ready = true
    · apply hnoop
      simp [close, hs]
    · have h : s.bpod_com_ready = false := by
        simp at hs
        exact hs
      simp only [hnoop s h]
  refine ⟨?_, hnoop s, ?_⟩
  · intro hs
    refine ⟨?_, ?_, ?_, ?_⟩ <;> simp [close, hs]
  · intro n
    induction n with
    | zero => exact Or.inl rfl
    | succ n ih =>
      rw [Function.iterate_succ_apply']
      rcases ih with h | h
      · rw [h]
        exact Or.inr rfl
      · rw [h, hidem]
        exact Or.inr rfl

/-- C10 witness: the first-close branch of the theorem at a concrete ready
state with an open primary and secondary connection and no analog one. -/
theorem close_idempotent_spec_witness :
    (ComState.mk true 0 (some 0) none).bpod_com_ready = true ∧
    ((close (ComState.mk true 0 (some 0) none)).bpod_com_ready = false ∧
     (close (ComState.mk true 0 (some 0) none)).primary_close_count
        = (ComState.mk true 0 (some 0) none).primary_close_count + 1 ∧
     (close (ComState.mk true 0 (some 0) none)).secondary_close_count
        = (ComState.mk true 0 (some 0) none).secondary_close_count.map (fun k => k + 1) ∧
     (close (ComState.mk true 0 (some 0) none)).analog_close_count
        = (ComState.mk true 0 (some 0) none).analog_close_count.map (fun k => k + 1)) :=
  ⟨rfl, (close_idempotent_spec (ComState.mk true 0 (some 0) none)).1 rfl⟩

/-- Helper: reading n u16 values from a stream holding at least 2n bytes
yields exactly n values and leaves exactly the stream without its first 2n
bytes. -/
theorem read_uint16_array_complete (n : Nat) :
    ∀ s : List Nat, 2 * n ≤ s.length →
      (read_uint16_array n s).1.length = n ∧
      (read_uint16_array n s).2 = s.drop (2 * n) := by
  induction n with
  | zero =>
    intro s h
    simp [read_uint16_array]
  | succ n ih =>
    intro s h
    match s with
    | [] => simp at h
    | [b] => simp at h; omega
    | b0 :: b1 :: rest =>
      have h' : 2 * n ≤ rest.length := by
        simp only [List.length_cons] at h
        omega
      obtain ⟨h1, h2⟩ := ih rest h'
      refine ⟨?_, ?_⟩
      · simp [read_uint16_array, h1]
      · show (read_uint16_array (n + 1) (b0 :: b1 :: rest)).2 = _
        rw [show 2 * (n + 1) = 2 * n + 1 + 1 by ring, List.drop_succ_cons,
          List.drop_succ_cons]
        simpa [read_uint16_array] using h2

/-- C9: with nothing available on the analog connection the decoder returns
an empty sequence and consumes nothing; with exactly one complete group
(2 times n_channels+1 bytes) available it returns exactly n_channels+1 u16
values and consumes precisely those bytes; and on any buffer the number of
bytes consumed is a whole multiple of the group width, so no partial group
is ever read. -/
theorem read_analog_input_samples_spec (n_channels : Nat) (analog_buffer : List Nat) :
    (_bpodcom_read_analog_input_samples n_channels [] = ([], [])) ∧
    (analog_buffer.length = 2 * (n_channels + 1) →
      (_bpodcom_read_analog_input_samples n_channels analog_buffer).1.length
          = n_channels + 1 ∧
      (_bpodcom_read_analog_input_samples n_channels analog_buffer).2 = []) ∧
    ((analog_buffer.length
        - (_bpodcom_read_analog_input_samples n_channels analog_buffer).2.length)
        % (2 * (n_channels + 1)) = 0) := by
  refine ⟨rfl, ?_, ?_⟩
  · intro h
    have hpos : analog_buffer.length > 0 := by omega
    have hdiv : analog_buffer.length / (2 * (n_channels + 1)) = 1 := by
      rw [h]
      exact Nat.div_self (by omega)
    have hle : 2 * (1 * (n_channels + 1)) ≤ analog_buffer.length := by omega
    obtain ⟨h1, h2⟩ := read_uint16_array_complete (1 * (n_channels + 1)) analog_buffer hle
    unfold _bpodcom_read_analog_input_samples
    simp only [hdiv, gt_iff_lt, hpos, if_pos]
    rw [if_pos (by omega : (0:Nat) < 1)]
    refine ⟨by rw [h1]; ring, ?_⟩
    rw [h2, show 2 * (1 * (n_channels + 1)) = analog_buffer.length by omega]
    exact List.drop_length _
  · unfold _bpodcom_read_analog_input_samples
    by_cases h0 : analog_buffer.length > 0
    · rw [if_pos h0]
      by_cases hk : analog_buffer.length / (2 * (n_channels + 1)) > 0
      · rw [if_pos hk]
        have hle : 2 * (analog_buffer.length / (2 * (n_channels + 1)) * (n_channels + 1))
            ≤ analog_buffer.length := by
          have hmul := Nat.div_mul_le_self analog_buffer.length (2 * (n_channels + 1))
          calc 2 * (analog_buffer.length / (2 * (n_channels + 1)) * (n_channels + 1))
              = analog_buffer.length / (2 * (n_channels + 1)) * (2 * (n_channels + 1)) := by
                ring
            _ ≤ analog_buffer.length := hmul
        obtain ⟨_, h2⟩ := read_uint16_array_complete _ _ hle
        rw [h2, List.length_drop]
        rw [show analog_buffer.length
            - (analog_buffer.length
              - 2 * (analog_buffer.length / (2 * (n_channels + 1)) * (n_channels + 1)))
            = 2 * (analog_buffer.length / (2 * (n_channels + 1)) * (n_channels + 1)) by omega]
        rw [show 2 * (analog_buffer.length / (2 * (n_channels + 1)) * (n_channels + 1))
            = 2 * (n_channels + 1) * (analog_buffer.length / (2 * (n_channels + 1))) by ring]
        exact Nat.mul_mod_right _ _
      · rw [if_neg hk]
        simp
    · rw [if_neg h0]
      simp

/-- C9 witness: the one-complete-group branch at one enabled channel and a
four-byte buffer. -/
theorem read_analog_input_samples_spec_witness :
    ([1, 0, 2, 0] : List Nat).length = 2 * (1 + 1) ∧
    ((_bpodcom_read_analog_input_samples 1 [1, 0, 2, 0]).1.length = 1 + 1 ∧
     (_bpodcom_read_analog_input_samples 1 [1, 0, 2, 0]).2 = []) :=
  ⟨by decide, (read_analog_input_samples_spec 1 [1, 0, 2, 0]).2.1 (by decide)⟩

/-- Helper: a successful one-byte read returns the head of the stream and
leaves the stream without its first byte. -/
theorem read_uint8_eq (s : List Nat) (v : Nat) (r : List Nat)
    (h : read_uint8 s = some (v, r)) : s[0]? = some v ∧ r = s.drop 1 := by
  match s with
  | [] => simp [read_uint8] at h
  | b :: rest =>
    simp only [read_uint8, Option.some.injEq, Prod.mk.injEq] at h
    obtain ⟨rfl, rfl⟩ := h
    simp

/-- Helper: a successful u16 read consumes exactly two bytes. -/
theorem read_uint16_eq (s : List Nat) (v : Nat) (r : List Nat)
    (h : read_uint16 s = some (v, r)) : r = s.drop 2 := by
  match s with
  | [] => simp [read_uint16] at h
  | [b] => simp [read_uint16] at h
  | b0 :: b1 :: rest =>
    simp only [read_uint16, Option.some.injEq, Prod.mk.injEq] at h
    obtain ⟨rfl, rfl⟩ := h
    simp

/-- Helper: a successful n-character read returns n characters and consumes
exactly n bytes. -/
theorem read_char_array_eq : ∀ (n : Nat) (s : List Nat) (cs : List Nat) (r : List Nat),
    read_char_array n s = some (cs, r) → cs.length = n ∧ r = s.drop n := by
  intro n
  induction n with
  | zero =>
    intro s cs r h
    simp only [read_char_array, Option.some.injEq, Prod.mk.injEq] at h
    obtain ⟨rfl, rfl⟩ := h
    simp
  | succ n ih =>
    intro s cs r h
    match s with
    | [] => simp [read_char_array] at h
    | b :: rest =>
      simp only [read_char_array] at h
      match hrec : read_char_array n rest with
      | none => rw [hrec] at h; simp at h
      | some (cs', r') =>
        rw [hrec] at h
        simp only [Option.some.injEq, Prod.mk.injEq] at h
        obtain ⟨rfl, rfl⟩ := h
        obtain ⟨hl, hr⟩ := ih rest cs' r' hrec
        refine ⟨by simp [hl], ?_⟩
        rw [hr]
        rfl

/-- Helper: the conditional serial-message max-byte step consumes nothing
and yields 3 at firmware versions up to 22, and consumes exactly the next
byte at versions above 22. -/
theorem read_serial_message_max_bytes_eq (firmware_version : Nat) (s : List Nat)
    (v : Nat) (r : List Nat)
    (h : read_serial_message_max_bytes firmware_version s = some (v, r)) :
    (firmware_version ≤ 22 → v = 3 ∧ r = s) ∧
    (22 < firmware_version → s[0]? = some v ∧ r = s.drop 1) := by
  constructor
  · intro hle
    rw [read_serial_message_max_bytes, if_neg (by omega)] at h
    simp only [Option.pure_def, Option.some.injEq, Prod.mk.injEq] at h
    exact ⟨h.1.symm, h.2.symm⟩
  · intro hgt
    rw [read_serial_message_max_bytes, if_pos (by omega)] at h
    exact read_uint8_eq _ _ _ h

/-- C5: in every successful capability negotiation, a firmware version of
22 or lower never reads the serial-message max-byte field (the total bytes
consumed are 11 plus the two channel lists) and defaults the capability to
3, while a version above 22 reads exactly one extra u8 at its fixed
position (stream offset 5, right after max states, cycle period and max
serial events) and stores the device-supplied value. -/
theorem hardware_description_serial_message_field (firmware_version : Nat)
    (s : List Nat) (hw : Hardware) (rest : List Nat)
    (h : _bpodcom_hardware_description firmware_version s = some (hw, rest)) :
    (firmware_version ≤ 22 →
      hw.serial_message_max_bytes = 3 ∧
      rest = s.drop (11 + hw.inputs.length + hw.outputs.length)) ∧
    (22 < firmware_version →
      s[5]? = some hw.serial_message_max_bytes ∧
      rest = s.drop (12 + hw.inputs.length + hw.outputs.length)) := by
  unfold _bpodcom_hardware_description at h
  simp only [Option.bind_eq_bind] at h
  rw [Option.bind_eq_some] at h
  obtain ⟨⟨max_states, s1⟩, h1, h⟩ := h
  dsimp only at h
  rw [Option.bind_eq_some] at h
  obtain ⟨⟨cycle_period, s2⟩, h2, h⟩ := h
  dsimp only at h
  rw [Option.bind_eq_some] at h
  obtain ⟨⟨max_serial_events, s3⟩, h3, h⟩ := h
  dsimp only at h
  rw [Option.bind_eq_some] at h
  obtain ⟨⟨smb, s4⟩, h4, h⟩ := h
  dsimp only at h
  rw [Option.bind_eq_some] at h
  obtain ⟨⟨ngt, s5⟩, h5, h⟩ := h
  dsimp only at h
  rw [Option.bind_eq_some] at h
  obtain ⟨⟨ngc, s6⟩, h6, h⟩ := h
  dsimp only at h
  rw [Option.bind_eq_some] at h
  obtain ⟨⟨ncond, s7⟩, h7, h⟩ := h
  dsimp only at h
  rw [Option.bind_eq_some] at h
  obtain ⟨⟨nin, s8⟩, h8, h⟩ := h
  dsimp only at h
  rw [Option.bind_eq_some] at h
  obtain ⟨⟨inputs, s9⟩, h9, h⟩ := h
  dsimp only at h
  rw [Option.bind_eq_some] at h
  obtain ⟨⟨nout, s10⟩, h10, h⟩ := h
  dsimp only at h
  rw [Option.bind_eq_some] at h
  obtain ⟨⟨outputs, s11⟩, h11, h⟩ := h
  dsimp only at h
  rw [Option.bind_eq_some] at h
  obtain ⟨⟨lts, s12⟩, h12, h⟩ := h
  simp only [Option.pure_def, Option.some.injEq, Prod.mk.injEq] at h
  obtain ⟨hhw, hrest⟩ := h
  subst hrest
  subst hhw
  have d1 := read_uint16_eq _ _ _ h1
  have d2 := read_uint16_eq _ _ _ h2
  obtain ⟨e3, d3⟩ := read_uint8_eq _ _ _ h3
  have hsmb := read_serial_message_max_bytes_eq _ _ _ _ h4
  obtain ⟨e5, d5⟩ := read_uint8_eq _ _ _ h5
  obtain ⟨e6, d6⟩ := read_uint8_eq _ _ _ h6
  obtain ⟨e7, d7⟩ := read_uint8_eq _ _ _ h7
  obtain ⟨e8, d8⟩ := read_uint8_eq _ _ _ h8
  obtain ⟨l9, d9⟩ := read_char_array_eq _ _ _ _ h9
  obtain ⟨e10, d10⟩ := read_uint8_eq _ _ _ h10
  obtain ⟨l11, d11⟩ := read_char_array_eq _ _ _ _ h11
  obtain ⟨e12, d12⟩ := read_uint8_eq _ _ _ h12
  constructor
  · intro hle
    obtain ⟨h43, h434⟩ := hsmb.1 hle
    dsimp only
    refine ⟨h43, ?_⟩
    subst d12 d11 d10 d9 d8 d7 d6 d5 d3 d2 d1
    rw [h434]
    simp only [List.drop_drop]
    rw [l9, l11]
    congr 1
    omega
  · intro hgt
    obtain ⟨e4, d4⟩ := hsmb.2 hgt
    dsimp only
    constructor
    · rw [← e4]
      subst d3 d2 d1
      simp only [List.drop_drop]
      rw [List.getElem?_drop]
    · subst d12 d11 d10 d9 d8 d7 d6 d5 d4 d3 d2 d1
      simp only [List.drop_drop]
      rw [l9, l11]
      congr 1
      omega

/-- C5 witness: the above-22 branch at firmware version 23 on a concrete
14-byte stream parsed completely. -/
theorem hardware_description_serial_message_field_witness :
    _bpodcom_hardware_description 23 wStream = some (wHardware, []) ∧
    ((23 ≤ 22 →
        wHardware.serial_message_max_bytes = 3 ∧
        ([] : List Nat)
          = wStream.drop (11 + wHardware.inputs.length + wHardware.outputs.length)) ∧
     (22 < 23 →
        wStream[5]? = some wHardware.serial_message_max_bytes ∧
        ([] : List Nat)
          = wStream.drop (12 + wHardware.inputs.length + wHardware.outputs.length))) :=
  ⟨by decide,
   hardware_description_serial_message_field 23 wStream wHardware [] (by decide)⟩

/-- Helper: a primary port found by the beacon scan actually answered the
beacon byte and came from the candidate list. -/
theorem identify_primary_loop_some (probe : Nat → ProbeResult) :
    ∀ (l : List Nat) (pp : Nat), (identify_primary_loop probe l).1 = some pp →
      probe pp = Except.ok ReceiveMessageHeader.PRIMARY_PORT_PING ∧ pp ∈ l := by
  intro l
  induction l with
  | nil =>
    intro pp h
    simp [identify_primary_loop] at h
  | cons p rest ih =>
    intro pp h
    cases hp : probe p with
    | error u =>
      simp only [identify_primary_loop, hp] at h
      obtain ⟨h1, h2⟩ := ih pp h
      exact ⟨h1, List.mem_cons_of_mem _ h2⟩
    | ok b =>
      by_cases hb : b = ReceiveMessageHeader.PRIMARY_PORT_PING
      · simp only [identify_primary_loop, hp, if_pos hb, Option.some.injEq] at h
        subst h
        subst hb
        exact ⟨hp, List.mem_cons_self _ _⟩
      · simp only [identify_primary_loop, hp, if_neg hb] at h
        obtain ⟨h1, h2⟩ := ih pp h
        exact ⟨h1, List.mem_cons_of_mem _ h2⟩

/-- Helper: every port recorded bad by the beacon scan faulted when probed
and came from the candidate list. -/
theorem identify_primary_loop_bad (probe : Nat → ProbeResult) :
    ∀ (l : List Nat) (q : Nat), q ∈ (identify_primary_loop probe l).2 →
      probe q = Except.error () ∧ q ∈ l := by
  intro l
  induction l with
  | nil =>
    intro q h
    simp [identify_primary_loop] at h
  | cons p rest ih =>
    intro q h
    cases hp : probe p with
    | error u =>
      simp only [identify_primary_loop, hp] at h
      rcases List.mem_cons.mp h with rfl | h'
      · cases u
        exact ⟨hp, List.mem_cons_self _ _⟩
      · obtain ⟨h1, h2⟩ := ih q h'
        exact ⟨h1, List.mem_cons_of_mem _ h2⟩
    | ok b =>
      by_cases hb : b = ReceiveMessageHeader.PRIMARY_PORT_PING
      · simp only [identify_primary_loop, hp, if_pos hb] at h
        simp at h
      · simp only [identify_primary_loop, hp, if_neg hb] at h
        obtain ⟨h1, h2⟩ := ih q h
        exact ⟨h1, List.mem_cons_of_mem _ h2⟩

/-- Helper: the port the second loop reports as secondary either came in as
the already-resolved secondary or is a pool candidate whose probed reply
was the secondary handshake code. -/
theorem identify_secondary_analog_loop_sec (probe : Nat → ProbeResult) :
    ∀ (l : List Nat) (s0 a0 : Option Nat) (q : Nat),
      (identify_secondary_analog_loop probe l s0 a0).1 = some q →
      s0 = some q ∨
        (q ∈ l ∧ probe q = Except.ok ReceiveMessageHeader.SECONDARY_PORT_HANDSHAKE_OK) := by
  intro l
  induction l with
  | nil =>
    intro s0 a0 q h
    simp only [identify_secondary_analog_loop] at h
    exact Or.inl h
  | cons p rest ih =>
    intro s0 a0 q h
    by_cases hc : (s0.isNone || a0.isNone) = true
    · cases hp : probe p with
      | error u =>
        simp only [identify_secondary_analog_loop, hc, if_pos, hp] at h
        rcases ih s0 a0 q h with h' | ⟨hm, hq⟩
        · exact Or.inl h'
        · exact Or.inr ⟨List.mem_cons_of_mem _ hm, hq⟩
      | ok r =>
        by_cases hr : r = ReceiveMessageHeader.SECONDARY_PORT_HANDSHAKE_OK
        · simp only [identify_secondary_analog_loop, hc, if_pos, hp, if_pos hr] at h
          rcases ih (some p) a0 q h with h' | ⟨hm, hq⟩
          · rw [Option.some.injEq] at h'
            subst h'
            exact Or.inr ⟨List.mem_cons_self _ _, by rw [hp, hr]⟩
          · exact Or.inr ⟨List.mem_cons_of_mem _ hm, hq⟩
        · by_cases hr2 : r = ReceiveMessageHeader.ANALOG_PORT_HANDSHAKE_OK
          · simp only [identify_secondary_analog_loop, hc, if_pos, hp, if_neg hr,
              if_pos hr2] at h
            rcases ih s0 (some p) q h with h' | ⟨hm, hq⟩
            · exact Or.inl h'
            · exact Or.inr ⟨List.mem_cons_of_mem _ hm, hq⟩
          · simp only [identify_secondary_analog_loop, hc, if_pos, hp, if_neg hr,
              if_neg hr2] at h
            rcases ih s0 a0 q h with h' | ⟨hm, hq⟩
            · exact Or.inl h'
            · exact Or.inr ⟨List.mem_cons_of_mem _ hm, hq⟩
    · simp only [identify_secondary_analog_loop, hc, if_neg, Bool.not_eq_true] at h
      exact Or.inl h

/-- Helper: the port the second loop reports as analog either came in as
the already-resolved analog or is a pool candidate whose probed reply was
the analog handshake code. -/
theorem identify_secondary_analog_loop_ana (probe : Nat → ProbeResult) :
    ∀ (l : List Nat) (s0 a0 : Option Nat) (q : Nat),
      (identify_secondary_analog_loop probe l s0 a0).2 = some q →
      a0 = some q ∨
        (q ∈ l ∧ probe q = Except.ok ReceiveMessageHeader.ANALOG_PORT_HANDSHAKE_OK) := by
  intro l
  induction l with
  | nil =>
    intro s0 a0 q h
    simp only [identify_secondary_analog_loop] at h
    exact Or.inl h
  | cons p rest ih =>
    intro s0 a0 q h
    by_cases hc : (s0.isNone || a0.isNone) = true
    · cases hp : probe p with
      | error u =>
        simp only [identify_secondary_analog_loop, hc, if_pos, hp] at h
        rcases ih s0 a0 q h with h' | ⟨hm, hq⟩
        · exact Or.inl h'
        · exact Or.inr ⟨List.mem_cons_of_mem _ hm, hq⟩
      | ok r =>
        by_cases hr : r = ReceiveMessageHeader.SECONDARY_PORT_HANDSHAKE_OK
        · simp only [identify_secondary_analog_loop, hc, if_pos, hp, if_pos hr] at h
          rcases ih (some p) a0 q h with h' | ⟨hm, hq⟩
          · exact Or.inl h'
          · exact Or.inr ⟨List.mem_cons_of_mem _ hm, hq⟩
        · by_cases hr2 : r = ReceiveMessageHeader.ANALOG_PORT_HANDSHAKE_OK
          · simp only [identify_secondary_analog_loop, hc, if_pos, hp, if_neg hr,
              if_pos hr2] at h
            rcases ih s0 (some p) q h with h' | ⟨hm, hq⟩
            · rw [Option.some.injEq] at h'
              subst h'
              exact Or.inr ⟨List.mem_cons_self _ _, by rw [hp, hr2]⟩
            · exact Or.inr ⟨List.mem_cons_of_mem _ hm, hq⟩
          · simp only [identify_secondary_analog_loop, hc, if_pos, hp, if_neg hr,
              if_neg hr2] at h
            rcases ih s0 a0 q h with h' | ⟨hm, hq⟩
            · exact Or.inl h'
            · exact Or.inr ⟨List.mem_cons_of_mem _ hm, hq⟩
    · simp only [identify_secondary_analog_loop, hc, if_neg, Bool.not_eq_true] at h
      exact Or.inl h

/-- Helper: removing the bad ports only ever shrinks the pool. -/
theorem mem_remove_bad_ports :
    ∀ (bad l : List Nat) (q : Nat), q ∈ remove_bad_ports l bad → q ∈ l := by
  intro bad
  induction bad with
  | nil =>
    intro l q h
    exact h
  | cons b rest ih =>
    intro l q h
    exact List.mem_of_mem_erase (ih (l.erase b) q h)

/-- Helper: on a duplicate-free pool, every recorded bad port is gone after
the removal pass. -/
theorem not_mem_remove_bad_ports :
    ∀ (bad l : List Nat) (q : Nat), l.Nodup → q ∈ bad → q ∉ remove_bad_ports l bad := by
  intro bad
  induction bad with
  | nil =>
    intro l q _ hq
    simp at hq
  | cons b rest ih =>
    intro l q hnd hq hmem
    rcases List.mem_cons.mp hq with rfl | hq'
    · have : q ∈ l.erase q := mem_remove_bad_ports rest (l.erase q) q hmem
      exact (hnd.mem_erase_iff.mp this).1 rfl
    · exact ih (l.erase b) q (hnd.erase b) hq' hmem

/-- C6: over a duplicate-free candidate list, port discovery never assigns
one endpoint to two of the three roles; on an empty candidate list it
terminates with all three roles unresolved; every candidate recorded bad by
a transport fault during the beacon scan is excluded from primary,
secondary and analog classification for the rest of the call; and a
candidate whose handshake probe faults is never classified as secondary or
analog — in all cases discovery still returns a result instead of
aborting. -/
theorem identify_ports_roles (probe1 probe2 : Nat → ProbeResult)
    (available_ports : List Nat) (hnd : available_ports.Nodup) :
    (_bpodcom_identify_USB_serial_ports probe1 probe2 [] = (none, none, none)) ∧
    (∀ pp, (_bpodcom_identify_USB_serial_ports probe1 probe2 available_ports).1 = some pp →
      (_bpodcom_identify_USB_serial_ports probe1 probe2 available_ports).2.1 ≠ some pp ∧
      (_bpodcom_identify_USB_serial_ports probe1 probe2 available_ports).2.2 ≠ some pp) ∧
    (∀ q, (_bpodcom_identify_USB_serial_ports probe1 probe2 available_ports).2.1 = some q →
      (_bpodcom_identify_USB_serial_ports probe1 probe2 available_ports).2.2 ≠ some q) ∧
    (∀ q, q ∈ (identify_primary_loop probe1 available_ports).2 →
      (_bpodcom_identify_USB_serial_ports probe1 probe2 available_ports).1 ≠ some q ∧
      (_bpodcom_identify_USB_serial_ports probe1 probe2 available_ports).2.1 ≠ some q ∧
      (_bpodcom_identify_USB_serial_ports probe1 probe2 available_ports).2.2 ≠ some q) ∧
    (∀ q, probe2 q = Except.error () →
      (_bpodcom_identify_USB_serial_ports probe1 probe2 available_ports).2.1 ≠ some q ∧
      (_bpodcom_identify_USB_serial_ports probe1 probe2 available_ports).2.2 ≠ some q) := by
  refine ⟨rfl, ?_⟩
  cases hfp : (identify_primary_loop probe1 available_ports).1 with
  | none =>
    have hres : _bpodcom_identify_USB_serial_ports probe1 probe2 available_ports
        = (none, none, none) := by
      simp only [_bpodcom_identify_USB_serial_ports, hfp]
    rw [hres]
    refine ⟨?_, ?_, ?_, ?_⟩
    · intro pp hpp
      simp at hpp
    · intro q hq
      simp at hq
    · intro q _
      exact ⟨by simp, by simp, by simp⟩
    · intro q _
      exact ⟨by simp, by simp⟩
  | some pp0 =>
    have hres : _bpodcom_identify_USB_serial_ports probe1 probe2 available_ports
        = (some pp0,
           identify_secondary_analog_loop probe2
             (remove_bad_ports (available_ports.erase pp0)
               (identify_primary_loop probe1 available_ports).2) none none) := by
      simp only [_bpodcom_identify_USB_serial_ports, hfp]
    rw [hres]
    have hpool : ∀ q, q ∈ remove_bad_ports (available_ports.erase pp0)
        (identify_primary_loop probe1 available_ports).2 → q ∈ available_ports.erase pp0 :=
      fun q hq => mem_remove_bad_ports _ _ q hq
    refine ⟨?_, ?_, ?_, ?_⟩
    · intro pp hpp
      simp only [Option.some.injEq] at hpp
      subst hpp
      constructor
      · intro heq
        rcases identify_secondary_analog_loop_sec probe2 _ none none pp0 heq with h' | ⟨hm, _⟩
        · simp at h'
        · have : pp0 ∈ available_ports.erase pp0 := hpool pp0 hm
          exact (hnd.mem_erase_iff.mp this).1 rfl
      · intro heq
        rcases identify_secondary_analog_loop_ana probe2 _ none none pp0 heq with h' | ⟨hm, _⟩
        · simp at h'
        · have : pp0 ∈ available_ports.erase pp0 := hpool pp0 hm
          exact (hnd.mem_erase_iff.mp this).1 rfl
    · intro q hsec heq
      rcases identify_secondary_analog_loop_sec probe2 _ none none q hsec with h' | ⟨_, hq1⟩
      · simp at h'
      · rcases identify_secondary_analog_loop_ana probe2 _ none none q heq with h'' | ⟨_, hq2⟩
        · simp at h''
        · rw [hq1] at hq2
          simp [ReceiveMessageHeader.SECONDARY_PORT_HANDSHAKE_OK,
            ReceiveMessageHeader.ANALOG_PORT_HANDSHAKE_OK] at hq2
    · intro q hbad
      obtain ⟨hqerr, hqmem⟩ := identify_primary_loop_bad probe1 available_ports q hbad
      refine ⟨?_, ?_, ?_⟩
      · intro heq
        simp only [Option.some.injEq] at heq
        subst heq
        obtain ⟨hok, _⟩ := identify_primary_loop_some probe1 available_ports pp0 hfp
        rw [hqerr] at hok
        simp at hok
      · intro heq
        rcases identify_secondary_analog_loop_sec probe2 _ none none q heq with h' | ⟨hm, _⟩
        · simp at h'
        · exact not_mem_remove_bad_ports _ _ q (hnd.erase pp0) hbad hm
      · intro heq
        rcases identify_secondary_analog_loop_ana probe2 _ none none q heq with h' | ⟨hm, _⟩
        · simp at h'
        · exact not_mem_remove_bad_ports _ _ q (hnd.erase pp0) hbad hm
    · intro q hq2err
      constructor
      · intro heq
        rcases identify_secondary_analog_loop_sec probe2 _ none none q heq with h' | ⟨_, hq1⟩
        · simp at h'
        · rw [hq2err] at hq1
          simp at hq1
      · intro heq
        rcases identify_secondary_analog_loop_ana probe2 _ none none q heq with h' | ⟨_, hq1⟩
        · simp at h'
        · rw [hq2err] at hq1
          simp at hq1

/-- C6 witness: the discovery guarantees at a concrete duplicate-free
candidate list where port 0 answers the beacon, port 1 faults during the
beacon probe, port 2 answers the secondary handshake and port 3 the analog
handshake. -/
theorem identify_ports_roles_witness :
    List.Nodup [0, 1, 2, 3] ∧
    ((_bpodcom_identify_USB_serial_ports wProbe1 wProbe2 [] = (none, none, none)) ∧
     (∀ pp, (_bpodcom_identify_USB_serial_ports wProbe1 wProbe2 [0, 1, 2, 3]).1 = some pp →
       (_bpodcom_identify_USB_serial_ports wProbe1 wProbe2 [0, 1, 2, 3]).2.1 ≠ some pp ∧
       (_bpodcom_identify_USB_serial_ports wProbe1 wProbe2 [0, 1, 2, 3]).2.2 ≠ some pp) ∧
     (∀ q, (_bpodcom_identify_USB_serial_ports wProbe1 wProbe2 [0, 1, 2, 3]).2.1 = some q →
       (_bpodcom_identify_USB_serial_ports wProbe1 wProbe2 [0, 1, 2, 3]).2.2 ≠ some q) ∧
     (∀ q, q ∈ (identify_primary_loop wProbe1 [0, 1, 2, 3]).2 →
       (_bpodcom_identify_USB_serial_ports wProbe1 wProbe2 [0, 1, 2, 3]).1 ≠ some q ∧
       (_bpodcom_identify_USB_serial_ports wProbe1 wProbe2 [0, 1, 2, 3]).2.1 ≠ some q ∧
       (_bpodcom_identify_USB_serial_ports wProbe1 wProbe2 [0, 1, 2, 3]).2.2 ≠ some q) ∧
     (∀ q, wProbe2 q = Except.error () →
       (_bpodcom_identify_USB_serial_ports wProbe1 wProbe2 [0, 1, 2, 3]).2.1 ≠ some q ∧
       (_bpodcom_identify_USB_serial_ports wProbe1 wProbe2 [0, 1, 2, 3]).2.2 ≠ some q)) :=
  ⟨by decide, identify_ports_roles wProbe1 wProbe2 [0, 1, 2, 3] (by decide)⟩
